import Mathlib

/-!
Verification development for the trotd repository (a Rust CLI that
aggregates trending-repository listings from GitHub, GitLab and Gitea).
The Rust sources are shallowly embedded: pure pipelines become Lean
functions over explicit inputs, the filesystem cache becomes explicit
state passing, and HTTP traffic is abstracted as a function from attempt
number (or request description) to a response value.  Machine integers
(u64/usize) are modelled as Nat; Rust's u64 parsing checks the 2^64 bound
explicitly where it matters.
-/

/- ===================== String helpers (src/model.rs, std) ===================== -/

/-- ASCII lower-casing of one character, as performed byte-wise by Rust's
to_ascii_lowercase: the letters A..Z map to a..z and every other character
(including every non-ASCII character) is unchanged. -/
def asciiLower (c : Char) : Char :=
  if 'A' ≤ c ∧ c ≤ 'Z' then Char.ofNat (c.toNat + 32) else c

/-- Model of Rust str::eq_ignore_ascii_case: two strings are equal ignoring
ASCII case iff lower-casing every character with asciiLower makes them equal.
Rust compares byte-by-byte; since the UTF-8 bytes of non-ASCII characters are
all at least 0x80 and are untouched by ASCII lower-casing, byte equality of the
ASCII-lowered byte strings coincides with character-wise equality of the
ASCII-lowered character lists, so the character-level model is faithful. -/
def eqIgnoreAsciiCase (a b : String) : Bool :=
  decide (a.data.map asciiLower = b.data.map asciiLower)

/-- Model of Rust char::is_whitespace for the characters that occur in the
scraped text this program handles (Unicode White_Space; Lean's
Char.isWhitespace covers the ASCII subset actually relevant here). -/
def isWs (c : Char) : Bool :=
  c.isWhitespace

/-- Model of Rust str::trim: remove leading and trailing whitespace. -/
def trimStr (s : String) : String :=
  ⟨((s.data.dropWhile isWs).reverse.dropWhile isWs).reverse⟩

/-- Model of Rust str::split_whitespace on a character list: maximal runs of
non-whitespace characters, in order, empty runs discarded. -/
def splitWsAux : List Char → List Char → List (List Char)
  | [], acc => if acc.isEmpty then [] else [acc.reverse]
  | c :: rest, acc =>
    if isWs c then
      if acc.isEmpty then splitWsAux rest [] else acc.reverse :: splitWsAux rest []
    else
      splitWsAux rest (c :: acc)

/-- Model of Rust str::split_whitespace, collected into a list of tokens. -/
def splitWs (s : String) : List String :=
  (splitWsAux s.data []).map fun cs => ⟨cs⟩

/-- Model of Rust String::replace(c, "") specialised to removing every
occurrence of one character. -/
def removeChar (c : Char) (s : String) : String :=
  ⟨s.data.filter fun d => d ≠ c⟩

/-- Model of Vec::join(""): concatenation of the tokens. -/
def joinStr (l : List String) : String :=
  l.foldl (fun acc s => acc ++ s) ""

/-- Model of Rust str::parse::<u64>: an optional leading plus sign followed by
at least one ASCII digit, value below 2^64; anything else fails. -/
def parseU64 (s : String) : Option Nat :=
  let cs :=
    match s.data with
    | '+' :: rest => rest
    | cs => cs
  if cs.isEmpty then none
  else if cs.all fun c => c.isDigit then
    let v := cs.foldl (fun acc c => acc * 10 + (c.toNat - 48)) 0
    if v < 2 ^ 64 then some v else none
  else none

/-- Model of Rust str::contains(pattern) for a string pattern: the pattern's
character list occurs contiguously in the string's character list. -/
def hasSubstr : List Char → List Char → Bool
  | l, pat =>
    if pat.isPrefixOf l then true
    else
      match l with
      | [] => false
      | _ :: t => hasSubstr t pat

/-- String-level wrapper for hasSubstr. -/
def containsStr (s pat : String) : Bool :=
  hasSubstr s.data pat.data

/- ===================== Data model (src/model.rs) ===================== -/

/-- Normalized repository record (struct Repo in src/model.rs).  DateTime is
modelled as unix seconds (Nat). -/
structure Repo where
  provider : String
  icon : String
  name : String
  language : Option String
  description : Option String
  url : String
  stars_today : Option Nat
  stars_total : Option Nat
  last_activity : Option Nat
  topics : List String
deriving DecidableEq

/-- Provider configuration (struct ProviderCfg in src/model.rs). -/
structure ProviderCfg where
  timeout_secs : Nat
  token : Option String
  base_url : Option String
  exclude_topics : List String

/-- Language filter (struct LanguageFilter in src/model.rs). -/
structure LanguageFilter where
  languages : List String

/-- LanguageFilter::matches from src/model.rs: true when the filter set is
empty; otherwise the record must carry a language equal, ignoring ASCII case,
to some entry of the filter set. -/
def LanguageFilter.matchesLang (f : LanguageFilter) (language : Option String) : Bool :=
  if f.languages.isEmpty then
    true
  else
    match language with
    | none => false
    | some lang => f.languages.any fun filt => eqIgnoreAsciiCase lang filt

/- ===================== TTL cache (src/cache.rs) ===================== -/

/-- Cache entry (struct CacheEntry in src/cache.rs): a unix-seconds timestamp
and the stored records. -/
structure CacheEntry where
  timestamp : Nat
  repos : List Repo
deriving DecidableEq

/-- Filesystem state seen by the cache, one slot per provider id.  The outer
Option is file existence (none = no cache file); the inner Option is whether
the file's content reads and parses as a CacheEntry (none = read or parse
failure, as with serde_json::from_str(...).ok()?). -/
def CacheFs : Type :=
  String → Option (Option CacheEntry)

/-- Cache::get from src/cache.rs: none when the file is missing, unreadable or
unparsable, or when the age now - timestamp (Rust saturating_sub, which is
exactly Nat subtraction) exceeds ttl_secs; otherwise the stored records. -/
def cacheGet (fs : CacheFs) (ttl_secs : Nat) (provider : String) (now : Nat) :
    Option (List Repo) :=
  match fs provider with
  | none => none
  | some none => none
  | some (some entry) =>
    if now - entry.timestamp > ttl_secs then none
    else some entry.repos

/-- Cache::set from src/cache.rs: overwrite the provider's slot with a fresh
entry timestamped now.  Serialization of a CacheEntry is modelled as faithful
(serde_json round-trips the struct). -/
def cacheSet (fs : CacheFs) (provider : String) (repos : List Repo) (now : Nat) :
    CacheFs :=
  fun q => if q = provider then some (some ⟨now, repos⟩) else fs q

/- ===================== HTTP client with retry (src/http.rs) ===================== -/

/-- Outcome of one network attempt as seen by get_json_once / get_html_once:
either the transport fails outright, or a status code arrives together with a
body; for the JSON path the body is modelled as an optional parsed value
(none = the body does not deserialize). -/
inductive HttpResponse where
  | transportError
  | status (code : Nat) (body : Option String)

/-- reqwest StatusCode::is_client_error: 400..=499. -/
def isClientError (code : Nat) : Bool :=
  400 ≤ code && code ≤ 499

/-- reqwest StatusCode::is_success: 200..=299. -/
def isSuccessCode (code : Nat) : Bool :=
  200 ≤ code && code ≤ 299

/-- HttpClient::get_json_once from src/http.rs: transport failure is an error;
a 4xx status is an error (the bail annotated as a client error); any other
non-2xx status is an error; a 2xx status whose body fails to parse is an
error; otherwise the parsed body. -/
def get_json_once (r : HttpResponse) : Except String String :=
  match r with
  | .transportError => .error "Failed to fetch URL"
  | .status code body =>
    if isClientError code then .error "HTTP request failed with client error"
    else if !isSuccessCode code then .error "HTTP request failed with status"
    else
      match body with
      | none => .error "Failed to parse JSON response"
      | some v => .ok v

/-- The retry loop of tokio_retry::Retry::spawn, counting network attempts.
The action is attempted once; on an error, if the backoff strategy still
yields a delay (retriesLeft > 0) the action is retried, otherwise the last
error is returned.  The i-th attempt observes outcome (attempts i).  Returns
the final result together with the total number of attempts performed.
Retry::spawn retries on every error value: it has no error classifier. -/
def retryLoop (once : Nat → Except String String) :
    Nat → Nat → Except String String × Nat
  | retriesLeft, i =>
    match once i with
    | .ok v => (.ok v, 1)
    | .error e =>
      match retriesLeft with
      | 0 => (.error e, 1)
      | r + 1 =>
        let rest := retryLoop once r (i + 1)
        (rest.1, rest.2 + 1)

/-- HttpClient::get_json from src/http.rs, with the sequence of per-attempt
network outcomes supplied explicitly: when max_retries = 0 the request is
executed exactly once; otherwise the once-action is run under
tokio_retry::Retry::spawn with a backoff strategy truncated to max_retries
delays.  Returns the result and the number of network attempts performed. -/
def get_json (responses : Nat → HttpResponse) (max_retries : Nat) :
    Except String String × Nat :=
  if max_retries = 0 then (get_json_once (responses 0), 1)
  else retryLoop (fun i => get_json_once (responses i)) max_retries 0

/-- HttpClient::get_html_once from src/http.rs: identical status handling to
get_json_once, but a 2xx body is returned as text (reading the text of a
received 2xx response is modelled as succeeding, as response.text() only
fails on transport-level problems). -/
def get_html_once (r : HttpResponse) : Except String String :=
  match r with
  | .transportError => .error "Failed to fetch URL"
  | .status code body =>
    if isClientError code then .error "HTTP request failed with client error"
    else if !isSuccessCode code then .error "HTTP request failed with status"
    else .ok (body.getD "")

/-- HttpClient::get_html from src/http.rs, same retry structure as get_json. -/
def get_html (responses : Nat → HttpResponse) (max_retries : Nat) :
    Except String String × Nat :=
  if max_retries = 0 then (get_html_once (responses 0), 1)
  else retryLoop (fun i => get_html_once (responses i)) max_retries 0

/- ===================== Orchestrator collection (src/main.rs) ===================== -/

/-- One provider task's result as delivered to the collection loop in main:
either (provider_id, repos) or an error. -/
inductive ProviderResult where
  | ok (id : String) (repos : List Repo)
  | err (msg : String)

/-- The collection loop of main (src/main.rs, lines 270-292): successful
non-empty lists are appended to all_repos (an empty success only prints a
warning), errors are pushed to the error list. -/
def collectStep (acc : List Repo × List String) (r : ProviderResult) :
    List Repo × List String :=
  match r with
  | .ok _ repos => if repos.isEmpty then acc else (acc.1 ++ repos, acc.2)
  | .err e => (acc.1, acc.2 ++ [e])

/-- Folding the collection loop over all completed provider tasks. -/
def collectResults (results : List ProviderResult) : List Repo × List String :=
  results.foldl collectStep ([], [])

/-- The fatal-error condition of main (src/main.rs, line 302): bail with
"All providers failed" exactly when all_repos is empty and at least one error
was collected. -/
def invocationFails (results : List ProviderResult) : Bool :=
  let c := collectResults results
  c.1.isEmpty && !c.2.isEmpty

/-- Concatenation of every successful provider's record list, the claim's
"merged repository list". -/
def mergedRepos (results : List ProviderResult) : List Repo :=
  (results.filterMap fun r =>
    match r with
    | .ok _ repos => some repos
    | .err _ => none).flatten

/-- The provider errors collected by the loop. -/
def collectedErrors (results : List ProviderResult) : List String :=
  results.filterMap fun r =>
    match r with
    | .ok _ _ => none
    | .err e => some e

/-- The minimum-star filter of main (src/main.rs, lines 317-324): when a
threshold is configured, retain exactly the records whose stars_total,
defaulted to 0 when absent, reaches the threshold. -/
def minStarsFilter (repos : List Repo) (min_stars : Nat) : List Repo :=
  repos.filter fun repo => min_stars ≤ repo.stars_total.getD 0

/- ===================== GitHub adapter (src/providers/github.rs) ===================== -/

/-- An h2 a element found inside an article of the trending page: its href
attribute (possibly absent) and its collected text. -/
structure NameElem where
  href : Option String
  text : String

/-- One article.Box-row block of the scraped GitHub trending page, reduced to
the pieces the selectors in parse_trending_html extract: the first h2 a
element (if any), the text of the first p element (if any), the text of the
language span (if any), and the texts of the star-count spans in order. -/
structure Article where
  nameElem : Option NameElem
  descText : Option String
  langText : Option String
  starsTexts : List String

/-- Intermediate scrape record (struct TrendingRepo in src/providers/github.rs). -/
structure TrendingRepo where
  name : String
  description : Option String
  language : Option String
  stars_today : Option Nat
  stars_total : Option Nat
  url : String
  topics : List String

/-- The per-article body of the extraction loop in parse_trending_html
(src/providers/github.rs, lines 93-149): articles without a name element or
an href are skipped; the name is the anchor text trimmed, with newlines
removed, split on whitespace and joined with the empty string; the url is
the href appended to the GitHub origin; stars today/total are parsed from the
star-span texts. -/
def extractTrendingRepo (a : Article) : Option TrendingRepo :=
  match a.nameElem with
  | none => none
  | some ne =>
    match ne.href with
    | none => none
    | some href =>
      some
        { name := joinStr (splitWs (removeChar '\n' (trimStr ne.text)))
          description := (a.descText.map trimStr).filter fun s => !s.isEmpty
          language := a.langText.map trimStr
          stars_today :=
            ((a.starsTexts.map trimStr).find? fun s =>
              containsStr s "stars today").bind fun s =>
              (splitWs s).head?.bind fun n => parseU64 (removeChar ',' n)
          stars_total :=
            ((a.starsTexts.map trimStr).find? fun s =>
              !containsStr s "stars today").bind fun s =>
              (splitWs (removeChar ',' s)).head?.bind parseU64
          url := "https://github.com" ++ href
          topics := [] }

/-- GitHub::parse_trending_html (src/providers/github.rs, lines 81-156): run
the extraction loop over every article; if zero repositories were extracted,
fail with a parse error, otherwise return them. -/
def parse_trending_html (articles : List Article) : Except String (List TrendingRepo) :=
  if (articles.filterMap extractTrendingRepo).isEmpty then
    .error "Failed to parse any repositories from GitHub trending page"
  else .ok (articles.filterMap extractTrendingRepo)

/-- GitHub::fetch_trending (src/providers/github.rs, lines 69-78): fetch the
trending page for an optional language and parse it.  The HTTP layer is
abstracted as pages : Option String -> Except ..., giving, per language
option, either the transport/status error of get_html or the article list of
the fetched document. -/
def fetch_trending (pages : Option String → Except String (List Article))
    (language : Option String) : Except String (List TrendingRepo) :=
  match pages language with
  | .error e => .error e
  | .ok articles => parse_trending_html articles

/-- Conversion of a scraped TrendingRepo into the normalized Repo performed in
GitHub::top_today (src/providers/github.rs, lines 235-246); now is the value
of chrono::Utc::now() used for last_activity. -/
def trendingToRepo (now : Nat) (r : TrendingRepo) : Repo :=
  { provider := "github", icon := "[GH]", name := r.name,
    language := r.language, description := r.description, url := r.url,
    stars_today := r.stars_today, stars_total := r.stars_total,
    last_activity := some now, topics := r.topics }

/-- The post-processing of the scrape branch of GitHub::top_today: language
filter, limit truncation, conversion to Repo. -/
def scrapePost (now limit : Nat) (langs : LanguageFilter)
    (trending : List TrendingRepo) : List Repo :=
  ((trending.filter fun r => langs.matchesLang r.language).take limit).map
    (trendingToRepo now)

/-- The per-language accumulation of the multi-query scrape path: a failed
fetch (if let Ok in the source) leaves the accumulator unchanged. -/
def scrapeAccum (pages : Option String → Except String (List Article))
    (acc : List TrendingRepo) (lang : String) : List TrendingRepo :=
  match fetch_trending pages (some lang) with
  | .ok repos => acc ++ repos
  | .error _ => acc

/-- The scrape branch of GitHub::top_today (src/providers/github.rs, lines
217-249): with an empty language filter, one fetch of the unfiltered trending
page whose error propagates; with a non-empty filter, one fetch per requested
language whose per-language errors are discarded (if let Ok in the source) and
whose successful results are concatenated; then scrapePost. -/
def githubTopTodayScrape (pages : Option String → Except String (List Article))
    (now : Nat) (limit : Nat) (langs : LanguageFilter) :
    Except String (List Repo) :=
  if langs.languages.isEmpty then
    match fetch_trending pages none with
    | .error e => .error e
    | .ok trending => .ok (scrapePost now limit langs trending)
  else
    .ok (scrapePost now limit langs
      (langs.languages.foldl (scrapeAccum pages) []))

/-- One item of the GitHub search API response (struct GitHubRepository in
src/providers/github.rs). -/
structure GitHubRepository where
  full_name : String
  description : Option String
  html_url : String
  stargazers_count : Nat
  language : Option String
  topics : List String
  updated_at : String
deriving DecidableEq

/-- The API branch of GitHub::top_today (src/providers/github.rs, lines
176-215), from the already-fetched search items: keep an item when the
language filter matches and no topic equals, ignoring ASCII case, an entry of
the exclusion list; truncate to limit; convert.  parseTime abstracts
chrono::DateTime::parse_from_rfc3339(...).ok(). -/
def githubHasExcludedTopic (exclude_topics : List String)
    (r : GitHubRepository) : Bool :=
  r.topics.any fun topic =>
    exclude_topics.any fun excluded => eqIgnoreAsciiCase topic excluded

/-- Conversion of one GitHub search item into the normalized Repo performed in
the API branch of GitHub::top_today. -/
def githubApiToRepo (parseTime : String → Option Nat)
    (r : GitHubRepository) : Repo :=
  { provider := "github", icon := "[GH]", name := r.full_name,
    language := r.language, description := r.description, url := r.html_url,
    stars_today := none, stars_total := some r.stargazers_count,
    last_activity := parseTime r.updated_at, topics := r.topics }

def githubApiTopToday (parseTime : String → Option Nat)
    (items : List GitHubRepository) (exclude_topics : List String)
    (limit : Nat) (langs : LanguageFilter) : List Repo :=
  ((items.filter fun r =>
      langs.matchesLang r.language &&
      !githubHasExcludedTopic exclude_topics r).take limit).map
    (githubApiToRepo parseTime)

/-- GitHub::top_today (src/providers/github.rs, lines 169-250): the API path
when topic exclusion is configured (apiResult abstracts fetch_trending_api),
otherwise the scrape path. -/
def githubTopToday (apiResult : Except String (List GitHubRepository))
    (pages : Option String → Except String (List Article))
    (parseTime : String → Option Nat) (now : Nat) (cfg : ProviderCfg)
    (limit : Nat) (langs : LanguageFilter) : Except String (List Repo) :=
  if !cfg.exclude_topics.isEmpty then
    match apiResult with
    | .error e => .error e
    | .ok items =>
      .ok (githubApiTopToday parseTime items cfg.exclude_topics limit langs)
  else githubTopTodayScrape pages now limit langs

/- ===================== GitLab adapter (src/providers/gitlab.rs) ===================== -/

/-- One project of the GitLab projects API response (struct GitLabProject in
src/providers/gitlab.rs). -/
structure GitLabProject where
  name : String
  path_with_namespace : String
  description : Option String
  star_count : Option Nat
  web_url : String
  topics : List String
  last_activity_at : Option String
deriving DecidableEq

/-- The fixed lowercase vocabulary of language topic tags in
GitLab::extract_language (src/providers/gitlab.rs, lines 63-84). -/
def languageVocab : List String :=
  ["rust", "go", "golang", "python", "javascript", "typescript", "java", "c",
   "cpp", "c++", "csharp", "c#", "ruby", "php", "swift", "kotlin", "scala",
   "haskell", "elixir", "erlang"]

/-- Model of Rust str::to_lowercase as used in extract_language: character-wise
ASCII lowering.  The result is only ever compared for equality against the
all-ASCII vocabulary entries (and the all-ASCII literals "golang", "c++",
"c#"), and no single character's full Unicode lowercase equals any of those
ASCII strings unless the ASCII lowering does too, so the ASCII model decides
those equalities identically. -/
def toLowercaseStr (s : String) : String :=
  ⟨s.data.map asciiLower⟩

/-- ASCII upper-casing of one character, modelling the char::to_uppercase call
in extract_language's capitalization branch. -/
def asciiUpper (c : Char) : Char :=
  if 'a' ≤ c ∧ c ≤ 'z' then Char.ofNat (c.toNat - 32) else c

/-- The capitalization branch of extract_language: upper-case the first
character, keep the rest. -/
def capitalizeFirst (s : String) : String :=
  match s.data with
  | [] => ""
  | c :: rest => ⟨asciiUpper c :: rest⟩

/-- GitLab::extract_language (src/providers/gitlab.rs, lines 61-110): find the
first topic whose lowercasing equals a vocabulary entry exactly, then
normalize it for display ("golang" to "Go", "c++" to "C++", "c#" to "C#",
otherwise capitalize the first letter). -/
def extract_language (topics : List String) : Option String :=
  (topics.find? fun topic =>
    languageVocab.any fun lang => toLowercaseStr topic = lang).map fun s =>
    let lower := toLowercaseStr s
    if lower = "golang" then "Go"
    else if lower = "c++" then "C++"
    else if lower = "c#" then "C#"
    else capitalizeFirst s

/-- The inclusion rule of GitLab::fetch_projects (src/providers/gitlab.rs,
lines 54-57): keep projects with star_count, defaulted to 0, at least 10. -/
def gitlabFetchFilter (projects : List GitLabProject) : List GitLabProject :=
  projects.filter fun p => 10 ≤ p.star_count.getD 0

/-- GitLab::top_today (src/providers/gitlab.rs, lines 123-161) applied to the
already-fetched (and star-filtered) projects: pair each project with its
extracted language, keep pairs matching the language filter, truncate to
limit, convert to Repo. -/
def gitlabTopToday (parseTime : String → Option Nat)
    (projects : List GitLabProject) (limit : Nat) (langs : LanguageFilter) :
    List Repo :=
  ((((gitlabFetchFilter projects).map fun p =>
      (p, extract_language p.topics)).filter fun x =>
      langs.matchesLang x.2).take limit).map fun x =>
    { provider := "gitlab", icon := "[GL]", name := x.1.path_with_namespace,
      language := x.2, description := x.1.description, url := x.1.web_url,
      stars_today := none, stars_total := x.1.star_count,
      last_activity := x.1.last_activity_at.bind parseTime,
      topics := x.1.topics }

/- ===================== Gitea adapter (src/providers/gitea.rs) ===================== -/

/-- One repository of the Gitea search API response (struct GiteaRepository in
src/providers/gitea.rs). -/
structure GiteaRepository where
  full_name : String
  description : Option String
  html_url : String
  stars_count : Option Nat
  language : Option String
  updated_at : Option String
deriving DecidableEq

/-- The inclusion rule of Gitea::fetch_repos (src/providers/gitea.rs, lines
53-57): keep repositories with stars_count, defaulted to 0, at least 1. -/
def giteaFetchFilter (data : List GiteaRepository) : List GiteaRepository :=
  data.filter fun repo => 1 ≤ repo.stars_count.getD 0

/-- Gitea::top_today (src/providers/gitea.rs, lines 73-109) applied to the
already-fetched (and star-filtered) repositories: language filter, limit
truncation, conversion to Repo. -/
def giteaTopToday (parseTime : String → Option Nat)
    (data : List GiteaRepository) (limit : Nat) (langs : LanguageFilter) :
    List Repo :=
  (((giteaFetchFilter data).filter fun r =>
      langs.matchesLang r.language).take limit).map fun r =>
    { provider := "gitea", icon := "[GE]", name := r.full_name,
      language := r.language, description := r.description, url := r.html_url,
      stars_today := none, stars_total := r.stars_count,
      last_activity := r.updated_at.bind parseTime, topics := [] }

/- ===================== Concrete sample inputs ===================== -/

/-- A sample normalized record used to instantiate closed statements. -/
def sampleRepo : Repo :=
  { provider := "github", icon := "[GH]", name := "test/repo",
    language := some "Rust", description := some "Test repository",
    url := "https://github.com/test/repo", stars_today := some 10,
    stars_total := some 100, last_activity := some 1700000000,
    topics := ["rust", "cli"] }

/-- A sample record whose stars_total is absent. -/
def noStarsRepo : Repo :=
  { sampleRepo with name := "no/stars", stars_total := none }

/-- A sample record with five total stars. -/
def fiveStarsRepo : Repo :=
  { sampleRepo with name := "five/stars", stars_total := some 5 }

/-- A Gitea search item whose full_name and html_url are the empty string but
which passes Gitea's one-star inclusion rule. -/
def giteaEmptyNameItem : GiteaRepository :=
  { full_name := "", description := none, html_url := "",
    stars_count := some 1, language := none, updated_at := none }

/-- A GitHub search item carrying the non-ASCII topic with a small c-cedilla. -/
def cedillaItem : GitHubRepository :=
  { full_name := "acme/cedilla", description := none,
    html_url := "https://github.com/acme/cedilla", stargazers_count := 3,
    language := some "Rust", topics := ["ç"], updated_at := "nottime" }

/-- The normalized record the API pipeline produces from cedillaItem when the
exclusion list only holds the capital C-cedilla. -/
def cedillaRepo : Repo :=
  { provider := "github", icon := "[GH]", name := "acme/cedilla",
    language := some "Rust", description := none,
    url := "https://github.com/acme/cedilla", stars_today := none,
    stars_total := some 3, last_activity := none, topics := ["ç"] }

/-- A Gitea search item with nonempty identifier and url fields. -/
def sampleGiteaItem : GiteaRepository :=
  { full_name := "owner/repo", description := none,
    html_url := "https://gitea.com/owner/repo", stars_count := some 2,
    language := some "Go", updated_at := none }

/-- The normalized record giteaTopToday produces from sampleGiteaItem under
an empty language filter. -/
def sampleGiteaRepo : Repo :=
  { provider := "gitea", icon := "[GE]", name := "owner/repo",
    language := some "Go", description := none,
    url := "https://gitea.com/owner/repo", stars_today := none,
    stars_total := some 2, last_activity := none, topics := [] }

/-- ASCII letter test used to state which characters take part in ASCII-only
case-insensitive comparison. -/
def isAsciiAlpha (c : Char) : Bool :=
  ('A' ≤ c && c ≤ 'Z') || ('a' ≤ c && c ≤ 'z')

/-- Two characters differ only in ASCII letter case (or are equal). -/
def charAsciiCaseVariant (c d : Char) : Bool :=
  c = d || (isAsciiAlpha c && isAsciiAlpha d && asciiLower c = asciiLower d)

/-- Two strings differ only in the ASCII letter case of corresponding
characters. -/
def asciiCaseVariant (a b : String) : Bool :=
  (decide (a.data.length = b.data.length)) &&
  ((a.data.zip b.data).all fun p => charAsciiCaseVariant p.1 p.2)

/- ===================== Helper lemmas ===================== -/

theorem mem_of_mem_filter_take {α : Type} (p : α → Bool) (l : List α) (n : Nat)
    (x : α) (hx : x ∈ (l.filter p).take n) : x ∈ l ∧ p x = true := by
  have hm : x ∈ l.filter p := List.take_subset n (l.filter p) hx
  exact ⟨List.mem_of_mem_filter hm, List.of_mem_filter hm⟩

theorem collect_foldl_eq (results : List ProviderResult) :
    ∀ acc : List Repo × List String,
      results.foldl collectStep acc =
        (acc.1 ++ mergedRepos results, acc.2 ++ collectedErrors results) := by
  induction results with
  | nil => intro acc; simp [mergedRepos, collectedErrors]
  | cons r rs ih =>
    intro acc
    cases r with
    | ok id repos =>
      by_cases h : repos.isEmpty
      · have he : repos = [] := by
          cases repos with
          | nil => rfl
          | cons a as => simp [List.isEmpty] at h
        subst he
        simp [collectStep, ih, mergedRepos, collectedErrors]
      · simp [collectStep, h, ih, mergedRepos, collectedErrors,
          List.append_assoc]
    | err e =>
      simp [collectStep, ih, mergedRepos, collectedErrors, List.append_assoc]

theorem collectResults_eq (results : List ProviderResult) :
    collectResults results = (mergedRepos results, collectedErrors results) := by
  simpa using collect_foldl_eq results ([], [])

theorem charAsciiCaseVariant_lower {c d : Char}
    (h : charAsciiCaseVariant c d = true) : asciiLower c = asciiLower d := by
  unfold charAsciiCaseVariant at h
  simp only [Bool.or_eq_true, Bool.and_eq_true, decide_eq_true_eq] at h
  rcases h with h1 | h2
  · exact congrArg asciiLower h1
  · exact h2.2

theorem asciiVariant_lists : ∀ l m : List Char,
    l.length = m.length →
    ((l.zip m).all fun p => charAsciiCaseVariant p.1 p.2) = true →
    l.map asciiLower = m.map asciiLower := by
  intro l
  induction l with
  | nil =>
    intro m hlen _
    cases m with
    | nil => rfl
    | cons d m => simp at hlen
  | cons c l ih =>
    intro m hlen hall
    cases m with
    | nil => simp at hlen
    | cons d m =>
      simp only [List.zip, List.zipWith, List.all_cons, Bool.and_eq_true] at hall
      simp only [List.map_cons]
      have hlen' : l.length = m.length := by simpa using hlen
      exact congrArg₂ List.cons (charAsciiCaseVariant_lower hall.1)
        (ih m hlen' hall.2)

/- ===================== Claim theorems ===================== -/

/-- C1: the spec and the in-code comment state that a 4xx response performs
exactly one network attempt even when max_retries > 0.  The code contradicts
this: tokio_retry::Retry::spawn retries on every error value and the 4xx bail
is an ordinary error, so with max_retries = 3 a request answered 404 on every
attempt performs 4 network attempts (for get_json and get_html alike) and
only then surfaces the client error. -/
theorem C1_get_json_retries_4xx :
    get_json (fun _ => .status 404 none) 3 =
      (.error "HTTP request failed with client error", 4) ∧
    get_html (fun _ => .status 404 none) 3 =
      (.error "HTTP request failed with client error", 4) ∧
    get_json (fun _ => .status 404 none) 0 =
      (.error "HTTP request failed with client error", 1) :=
  ⟨rfl, rfl, rfl⟩

/-- C2: the invocation fails (main bails with "All providers failed") exactly
when the merged repository list is empty and at least one provider reported an
error; in every other case, including all-providers-empty with no errors, the
invocation proceeds (errors having been printed only as warnings). -/
theorem C2_failure_condition (results : List ProviderResult) :
    invocationFails results = true ↔
      mergedRepos results = [] ∧ collectedErrors results ≠ [] := by
  unfold invocationFails
  rw [collectResults_eq]
  constructor
  · intro h
    have h' := Bool.and_eq_true_iff.mp h
    refine ⟨List.isEmpty_iff.mp h'.1, ?_⟩
    intro hc
    rw [hc] at h'
    simp at h'
  · rintro ⟨h1, h2⟩
    apply Bool.and_eq_true_iff.mpr
    refine ⟨List.isEmpty_iff.mpr h1, ?_⟩
    cases hE : collectedErrors results with
    | nil => exact absurd hE h2
    | cons e es => simp

/-- C4: with an empty filter set matchesLang is unconditionally true; with a
nonempty set it is true iff the record's language is present and equals some
filter entry ignoring ASCII case (exact equality, so the substring "Pythonic"
never matches the filter "python"); an absent language is rejected. -/
theorem C4_language_filter (F : List String) (L : Option String) :
    (F = [] → LanguageFilter.matchesLang ⟨F⟩ L = true) ∧
    (F ≠ [] →
      (LanguageFilter.matchesLang ⟨F⟩ L = true ↔
        ∃ lang, L = some lang ∧
          ∃ filt ∈ F, eqIgnoreAsciiCase lang filt = true)) ∧
    (F ≠ [] → L = none → LanguageFilter.matchesLang ⟨F⟩ L = false) ∧
    LanguageFilter.matchesLang ⟨["python"]⟩ (some "Pythonic") = false := by
  refine ⟨?_, ?_, ?_, by decide⟩
  · intro h; subst h; rfl
  · intro hF
    cases L with
    | none =>
      have hL : LanguageFilter.matchesLang ⟨F⟩ none = false := by
        cases F with
        | nil => exact absurd rfl hF
        | cons a as => rfl
      rw [hL]
      constructor
      · intro h; exact absurd h (by simp)
      · rintro ⟨lang, hlang, -⟩
        exact Option.noConfusion hlang
    | some lang =>
      have hL : LanguageFilter.matchesLang ⟨F⟩ (some lang) =
          F.any fun filt => eqIgnoreAsciiCase lang filt := by
        cases F with
        | nil => exact absurd rfl hF
        | cons a as => rfl
      rw [hL, List.any_eq_true]
      constructor
      · rintro ⟨filt, hmem, heq⟩
        exact ⟨lang, rfl, filt, hmem, heq⟩
      · rintro ⟨lang', hlang', filt, hmem, heq⟩
        obtain rfl : lang' = lang := (Option.some.inj hlang').symm
        exact ⟨filt, hmem, heq⟩
  · intro hF hL
    subst hL
    cases F with
    | nil => exact absurd rfl hF
    | cons a as => rfl

/-- C4 witness: the nonempty-filter equivalence instantiated at the filter set
containing "rust" and the language "RUST". -/
theorem C4_language_filter_witness :
    LanguageFilter.matchesLang ⟨["rust"]⟩ (some "RUST") = true :=
  ((C4_language_filter ["rust"] (some "RUST")).2.1 (by decide)).mpr
    ⟨"RUST", rfl, "rust", List.mem_singleton.mpr rfl, by decide⟩

/-- C5: writing a record list for a provider and reading it back at any later
moment within the TTL returns exactly the written list, in order. -/
theorem C5_cache_roundtrip (fs : CacheFs) (provider : String)
    (repos : List Repo) (t now ttl_secs : Nat) (h : now - t ≤ ttl_secs) :
    cacheGet (cacheSet fs provider repos t) ttl_secs provider now =
      some repos := by
  have hsel : cacheSet fs provider repos t provider =
      some (some ⟨t, repos⟩) := by
    unfold cacheSet
    rw [if_pos rfl]
  unfold cacheGet
  rw [hsel]
  show (if now - t > ttl_secs then none else some repos) = some repos
  rw [if_neg (by omega)]

/-- C5 witness: a concrete round-trip 50 seconds after the write under a
60-second TTL. -/
theorem C5_cache_roundtrip_witness :
    cacheGet (cacheSet (fun _ => none) "github" [sampleRepo] 100) 60 "github"
      150 = some [sampleRepo] :=
  C5_cache_roundtrip (fun _ => none) "github" [sampleRepo] 100 150 60
    (by decide)

/-- C6: cacheGet is absent exactly when the file is missing, unreadable or
unparsable, or the saturating age exceeds the TTL; an entry written with
TTL = 0 is absent once one second has elapsed; and an entry timestamped in
the future has saturating age 0 and is therefore still served. -/
theorem C6_cache_absence (fs : CacheFs) (p : String) (now ttl : Nat) :
    (cacheGet fs ttl p now = none ↔
      fs p = none ∨ fs p = some none ∨
        ∃ e, fs p = some (some e) ∧ ttl < now - e.timestamp) ∧
    (∀ repos t, t + 1 ≤ now →
      cacheGet (cacheSet fs p repos t) 0 p now = none) ∧
    (∀ e, fs p = some (some e) → now ≤ e.timestamp →
      cacheGet fs ttl p now = some e.repos) := by
  refine ⟨?_, ?_, ?_⟩
  · cases hfs : fs p with
    | none =>
      unfold cacheGet
      rw [hfs]
      exact iff_of_true rfl (Or.inl rfl)
    | some inner =>
      cases inner with
      | none =>
        unfold cacheGet
        rw [hfs]
        exact iff_of_true rfl (Or.inr (Or.inl rfl))
      | some e =>
        unfold cacheGet
        rw [hfs]
        show (if now - e.timestamp > ttl then none else some e.repos) =
            none ↔ _
        by_cases hage : now - e.timestamp > ttl
        · rw [if_pos hage]
          exact iff_of_true rfl (Or.inr (Or.inr ⟨e, rfl, hage⟩))
        · rw [if_neg hage]
          constructor
          · intro hcontra
            exact Option.noConfusion hcontra
          · rintro (h | h | ⟨e', he', hlt⟩)
            · exact Option.noConfusion h
            · exact Option.noConfusion (Option.some.inj h)
            · cases Option.some.inj (Option.some.inj he')
              exact absurd hlt hage
  · intro repos t ht
    have hsel : cacheSet fs p repos t p = some (some ⟨t, repos⟩) := by
      unfold cacheSet
      rw [if_pos rfl]
    unfold cacheGet
    rw [hsel]
    show (if now - t > 0 then none else some repos) = none
    rw [if_pos (by omega)]
  · intro e he hfut
    unfold cacheGet
    rw [he]
    show (if now - e.timestamp > ttl then none else some e.repos) =
        some e.repos
    rw [if_neg (by omega)]

/-- C6 witness: the TTL = 0 expiry two seconds after the write, and the
future-timestamp clause at a concrete entry. -/
theorem C6_cache_absence_witness :
    cacheGet (cacheSet (fun _ => none) "gitea" [sampleRepo] 5) 0 "gitea" 7 =
      none ∧
    cacheGet (fun _ => some (some ⟨100, [sampleRepo]⟩)) 60 "github" 40 =
      some [sampleRepo] :=
  ⟨(C6_cache_absence (fun _ => none) "gitea" 7 0).2.1 [sampleRepo] 5
      (by decide),
    (C6_cache_absence (fun _ => some (some ⟨100, [sampleRepo]⟩)) "github" 40
      60).2.2 ⟨100, [sampleRepo]⟩ rfl (by decide)⟩

/-- C9: the post-merge star filter keeps exactly the records whose
stars_total, defaulted to 0 when absent, reaches the threshold; hence a record
with absent stars_total is removed under any positive threshold and a record
with 5 total stars is removed under threshold 10. -/
theorem C9_min_stars (repos : List Repo) (t : Nat) :
    (∀ r, r ∈ minStarsFilter repos t ↔
      r ∈ repos ∧ t ≤ r.stars_total.getD 0) ∧
    (∀ r, r ∈ repos → r.stars_total = none → 1 ≤ t →
      r ∉ minStarsFilter repos t) ∧
    (∀ r, r ∈ repos → r.stars_total = some 5 → r ∉ minStarsFilter repos 10) := by
  refine ⟨?_, ?_, ?_⟩
  · intro r
    unfold minStarsFilter
    rw [List.mem_filter]
    exact ⟨fun ⟨h1, h2⟩ => ⟨h1, of_decide_eq_true h2⟩,
      fun ⟨h1, h2⟩ => ⟨h1, decide_eq_true h2⟩⟩
  · intro r _ hnone ht hmem
    unfold minStarsFilter at hmem
    have := List.of_mem_filter hmem
    rw [hnone] at this
    have : t ≤ 0 := of_decide_eq_true this
    omega
  · intro r _ hfive hmem
    unfold minStarsFilter at hmem
    have := List.of_mem_filter hmem
    rw [hfive] at this
    have : (10 : Nat) ≤ 5 := of_decide_eq_true this
    omega

/-- C9 witness: the five-star record is removed at threshold 10 and the
star-less record at threshold 1, applied to a concrete merged list. -/
theorem C9_min_stars_witness :
    fiveStarsRepo ∉ minStarsFilter [fiveStarsRepo, noStarsRepo] 10 ∧
    noStarsRepo ∉ minStarsFilter [fiveStarsRepo, noStarsRepo] 1 :=
  ⟨(C9_min_stars [fiveStarsRepo, noStarsRepo] 10).2.2 fiveStarsRepo
      (List.mem_cons_self ..) rfl,
    (C9_min_stars [fiveStarsRepo, noStarsRepo] 1).2.1 noStarsRepo
      (List.mem_cons_of_mem _ (List.mem_cons_self ..)) rfl (by decide)⟩

theorem extractTrendingRepo_url (a : Article) (t : TrendingRepo)
    (h : extractTrendingRepo a = some t) : t.url ≠ "" := by
  unfold extractTrendingRepo at h
  split at h
  · exact Option.noConfusion h
  · split at h
    · exact Option.noConfusion h
    · rename_i ne hne href hhref
      have ht := Option.some.inj h
      intro hurl
      have hu : t.url = "https://github.com" ++ href := by rw [← ht]
      rw [hu] at hurl
      have hd := congrArg String.data hurl
      rw [String.data_append] at hd
      have hlen := congrArg List.length hd
      rw [List.length_append] at hlen
      rw [show ("https://github.com" : String).data.length = 18 from rfl]
        at hlen
      rw [show ("" : String).data.length = 0 from rfl] at hlen
      omega

theorem parse_trending_html_ok (articles : List Article)
    (ts : List TrendingRepo) (h : parse_trending_html articles = .ok ts) :
    ts = articles.filterMap extractTrendingRepo ∧ ts ≠ [] := by
  unfold parse_trending_html at h
  by_cases he : (articles.filterMap extractTrendingRepo).isEmpty
  · rw [if_pos he] at h
    exact Except.noConfusion h
  · rw [if_neg he] at h
    have heq := Except.ok.inj h
    refine ⟨heq.symm, ?_⟩
    intro hts
    apply he
    rw [heq, hts]
    rfl

theorem fetch_trending_ok_url (pages : Option String → Except String (List Article))
    (lang : Option String) (ts : List TrendingRepo)
    (h : fetch_trending pages lang = .ok ts) : ∀ t ∈ ts, t.url ≠ "" := by
  unfold fetch_trending at h
  cases hp : pages lang with
  | error e =>
    rw [hp] at h
    exact Except.noConfusion h
  | ok articles =>
    rw [hp] at h
    intro t ht
    obtain ⟨heq, -⟩ := parse_trending_html_ok articles ts h
    rw [heq] at ht
    obtain ⟨a, -, ha⟩ := List.mem_filterMap.mp ht
    exact extractTrendingRepo_url a t ha

theorem scrape_fold_url (pages : Option String → Except String (List Article)) :
    ∀ (ls : List String) (acc : List TrendingRepo),
      (∀ t ∈ acc, t.url ≠ "") →
      ∀ t ∈ ls.foldl (scrapeAccum pages) acc, t.url ≠ "" := by
  intro ls
  induction ls with
  | nil =>
    intro acc hacc
    simpa using hacc
  | cons l ls ih =>
    intro acc hacc
    rw [List.foldl_cons]
    apply ih
    unfold scrapeAccum
    cases hf : fetch_trending pages (some l) with
    | error e => exact hacc
    | ok repos =>
      intro t ht
      rcases List.mem_append.mp ht with h | h
      · exact hacc t h
      · exact fetch_trending_ok_url pages (some l) repos hf t h

theorem scrapePost_length (now limit : Nat) (langs : LanguageFilter)
    (trending : List TrendingRepo) :
    (scrapePost now limit langs trending).length ≤ limit := by
  unfold scrapePost
  rw [List.length_map]
  exact List.length_take_le ..

theorem scrapePost_lang (now limit : Nat) (langs : LanguageFilter)
    (trending : List TrendingRepo) :
    ∀ r ∈ scrapePost now limit langs trending,
      langs.matchesLang r.language = true := by
  intro r hr
  unfold scrapePost at hr
  obtain ⟨x, hx, rfl⟩ := List.mem_map.mp hr
  obtain ⟨-, hxq⟩ := mem_of_mem_filter_take _ _ _ _ hx
  exact hxq

theorem githubApiTopToday_length (parseTime : String → Option Nat)
    (items : List GitHubRepository) (excl : List String) (limit : Nat)
    (langs : LanguageFilter) :
    (githubApiTopToday parseTime items excl limit langs).length ≤ limit := by
  unfold githubApiTopToday
  rw [List.length_map]
  exact List.length_take_le ..

theorem githubApiTopToday_mem (parseTime : String → Option Nat)
    (items : List GitHubRepository) (excl : List String) (limit : Nat)
    (langs : LanguageFilter) :
    ∀ r ∈ githubApiTopToday parseTime items excl limit langs,
      langs.matchesLang r.language = true ∧
        (r.topics.any fun topic =>
          excl.any fun excluded => eqIgnoreAsciiCase topic excluded) =
          false := by
  intro r hr
  unfold githubApiTopToday at hr
  obtain ⟨x, hx, rfl⟩ := List.mem_map.mp hr
  obtain ⟨-, hxq⟩ := mem_of_mem_filter_take _ _ _ _ hx
  have hxq' := Bool.and_eq_true_iff.mp hxq
  refine ⟨hxq'.1, ?_⟩
  have hb : githubHasExcludedTopic excl x = false := by
    cases hgb : githubHasExcludedTopic excl x with
    | false => rfl
    | true =>
      rw [hgb] at hxq'
      exact absurd hxq'.2 (by simp)
  exact hb

theorem githubTopTodayScrape_ok
    (pages : Option String → Except String (List Article))
    (now limit : Nat) (langs : LanguageFilter) (repos : List Repo)
    (h : githubTopTodayScrape pages now limit langs = .ok repos) :
    repos.length ≤ limit ∧
      ∀ r ∈ repos, langs.matchesLang r.language = true := by
  unfold githubTopTodayScrape at h
  split at h
  · cases hf : fetch_trending pages none with
    | error e =>
      rw [hf] at h
      exact Except.noConfusion h
    | ok trending =>
      rw [hf] at h
      cases Except.ok.inj h
      exact ⟨scrapePost_length now limit langs _,
        scrapePost_lang now limit langs _⟩
  · cases Except.ok.inj h
    exact ⟨scrapePost_length now limit langs _,
      scrapePost_lang now limit langs _⟩

/-- C3: every adapter pipeline returns at most limit records, every returned
record's language passes the language filter, and every returned record
satisfies its provider's inclusion rule (GitLab: at least 10 total stars,
Gitea: at least 1, GitHub API path: no topic in the exclusion list); the
GitHub API pipeline equals the pipeline that applies the topic-exclusion
inclusion rule first, then the language filter, then the truncation, so the
inclusion rule is applied before both; and GitHub's top-level top_today
(whichever branch it takes, including the default scrape branch taken when
topic exclusion is not configured) also returns at most limit records, all
matching the language filter, with the exclusion rule additionally holding
whenever topic exclusion is configured. -/
theorem C3_adapter_limit_contract (parseTime : String → Option Nat)
    (projects : List GitLabProject) (giteaData : List GiteaRepository)
    (items : List GitHubRepository) (excl : List String) (limit : Nat)
    (langs : LanguageFilter) :
    ((gitlabTopToday parseTime projects limit langs).length ≤ limit ∧
      ∀ r ∈ gitlabTopToday parseTime projects limit langs,
        langs.matchesLang r.language = true ∧ 10 ≤ r.stars_total.getD 0) ∧
    ((giteaTopToday parseTime giteaData limit langs).length ≤ limit ∧
      ∀ r ∈ giteaTopToday parseTime giteaData limit langs,
        langs.matchesLang r.language = true ∧ 1 ≤ r.stars_total.getD 0) ∧
    ((githubApiTopToday parseTime items excl limit langs).length ≤ limit ∧
      ∀ r ∈ githubApiTopToday parseTime items excl limit langs,
        langs.matchesLang r.language = true ∧
          (r.topics.any fun topic =>
            excl.any fun excluded => eqIgnoreAsciiCase topic excluded) =
            false) ∧
    githubApiTopToday parseTime items excl limit langs =
      (((items.filter fun r => !githubHasExcludedTopic excl r).filter fun r =>
          langs.matchesLang r.language).take limit).map
        (githubApiToRepo parseTime) ∧
    ∀ (apiResult : Except String (List GitHubRepository))
      (pages : Option String → Except String (List Article)) (now : Nat)
      (cfg : ProviderCfg) (repos : List Repo),
      githubTopToday apiResult pages parseTime now cfg limit langs =
        .ok repos →
        repos.length ≤ limit ∧
        (∀ r ∈ repos, langs.matchesLang r.language = true) ∧
        (cfg.exclude_topics ≠ [] →
          ∀ r ∈ repos,
            (r.topics.any fun topic =>
              cfg.exclude_topics.any fun excluded =>
                eqIgnoreAsciiCase topic excluded) = false) := by
  refine ⟨⟨?_, ?_⟩, ⟨?_, ?_⟩, ⟨?_, ?_⟩, ?_, ?_⟩
  · unfold gitlabTopToday
    rw [List.length_map]
    exact List.length_take_le ..
  · intro r hr
    unfold gitlabTopToday at hr
    obtain ⟨x, hx, rfl⟩ := List.mem_map.mp hr
    obtain ⟨hxmem, hxq⟩ := mem_of_mem_filter_take _ _ _ _ hx
    obtain ⟨p', hp', rfl⟩ := List.mem_map.mp hxmem
    unfold gitlabFetchFilter at hp'
    have hstar : (10 : Nat) ≤ p'.star_count.getD 0 := by
      simpa using List.of_mem_filter hp'
    exact ⟨hxq, hstar⟩
  · unfold giteaTopToday
    rw [List.length_map]
    exact List.length_take_le ..
  · intro r hr
    unfold giteaTopToday at hr
    obtain ⟨x, hx, rfl⟩ := List.mem_map.mp hr
    obtain ⟨hxmem, hxq⟩ := mem_of_mem_filter_take _ _ _ _ hx
    unfold giteaFetchFilter at hxmem
    have hstar : (1 : Nat) ≤ x.stars_count.getD 0 := by
      simpa using List.of_mem_filter hxmem
    exact ⟨hxq, hstar⟩
  · exact githubApiTopToday_length parseTime items excl limit langs
  · exact githubApiTopToday_mem parseTime items excl limit langs
  · unfold githubApiTopToday
    rw [List.filter_filter]
  · intro apiResult pages now cfg repos hres
    unfold githubTopToday at hres
    split at hres
    · cases apiResult with
      | error e => exact Except.noConfusion hres
      | ok apiItems =>
        have hrep := Except.ok.inj hres
        subst hrep
        refine ⟨githubApiTopToday_length .., ?_, ?_⟩
        · intro r hr
          exact (githubApiTopToday_mem parseTime apiItems cfg.exclude_topics
            limit langs r hr).1
        · intro _ r hr
          exact (githubApiTopToday_mem parseTime apiItems cfg.exclude_topics
            limit langs r hr).2
    · rename_i hexc
      have hempty : cfg.exclude_topics = [] := by
        cases hc : cfg.exclude_topics with
        | nil => rfl
        | cons a as =>
          rw [hc] at hexc
          exact absurd rfl hexc
      obtain ⟨h1, h2⟩ :=
        githubTopTodayScrape_ok pages now limit langs repos hres
      exact ⟨h1, h2, fun hne => absurd hempty hne⟩

/-- C3 witness: the GitHub API conjunct instantiated at a concrete search
item, exclusion list, limit and empty language filter. -/
theorem C3_adapter_limit_contract_witness :
    LanguageFilter.matchesLang ⟨[]⟩ cedillaRepo.language = true ∧
    (cedillaRepo.topics.any fun topic =>
      ["x"].any fun excluded => eqIgnoreAsciiCase topic excluded) = false :=
  (C3_adapter_limit_contract (fun _ => none) [] [] [cedillaItem] ["x"] 5
    ⟨[]⟩).2.2.1.2 cedillaRepo (by decide)

/-- C7 counterexample: in the multi-query scrape path (language filter
["rust"], no topic exclusion) a trending page from which zero repositories
can be extracted makes top_today succeed with the empty list instead of
failing with a parse error, because each per-language fetch error is
discarded by the if-let. -/
theorem C7_counterexample :
    githubTopToday (.error "unused") (fun _ => .ok []) (fun _ => none) 0
      ⟨10, none, none, []⟩ 5 ⟨["rust"]⟩ = .ok [] := rfl

/-- C7 amended: in the single-query scrape path (empty language filter) a
page with zero extractable repositories does fail with the parse error; but
in the multi-query path (non-empty language filter) per-language failures are
discarded and top_today always returns ok, possibly with an empty list. -/
theorem C7_amended_scrape_zero (pages : Option String → Except String (List Article))
    (now limit : Nat) :
    (∀ articles, pages none = .ok articles →
      articles.filterMap extractTrendingRepo = [] →
      githubTopTodayScrape pages now limit ⟨[]⟩ =
        .error "Failed to parse any repositories from GitHub trending page") ∧
    (∀ ls : List String, ls ≠ [] →
      (githubTopTodayScrape pages now limit ⟨ls⟩).isOk = true) := by
  constructor
  · intro articles hp hempty
    have hf : fetch_trending pages none =
        .error "Failed to parse any repositories from GitHub trending page" := by
      unfold fetch_trending
      rw [hp]
      show parse_trending_html articles = _
      unfold parse_trending_html
      rw [hempty]
      rfl
    unfold githubTopTodayScrape
    show (match fetch_trending pages none with
      | Except.error e => Except.error e
      | Except.ok trending =>
        Except.ok (scrapePost now limit ⟨[]⟩ trending)) = _
    rw [hf]
  · intro ls hls
    cases ls with
    | nil => exact absurd rfl hls
    | cons l ls' => rfl

/-- C7 witness: the amended statement at a page with zero articles, for the
single-query path and for a one-language multi-query path. -/
theorem C7_amended_scrape_zero_witness :
    githubTopTodayScrape (fun _ => .ok []) 0 5 ⟨[]⟩ =
      .error "Failed to parse any repositories from GitHub trending page" ∧
    (githubTopTodayScrape (fun _ => .ok []) 0 5 ⟨["rust"]⟩).isOk = true :=
  ⟨(C7_amended_scrape_zero (fun _ => .ok []) 0 5).1 [] rfl rfl,
    (C7_amended_scrape_zero (fun _ => .ok []) 0 5).2 ["rust"] (by decide)⟩

/-- C8 counterexample: Gitea's top_today accepts an upstream item whose
full_name and html_url are empty (it passes the one-star inclusion rule) and
produces a record with empty name and empty url, so the claimed invariant
fails over the accepted responses. -/
theorem C8_counterexample :
    giteaTopToday (fun _ => none) [giteaEmptyNameItem] 5 ⟨[]⟩ =
      [{ provider := "gitea", icon := "[GE]", name := "", language := none,
         description := none, url := "", stars_today := none,
         stars_total := some 1, last_activity := none, topics := [] }] := rfl

/-- C8 amended: the adapters copy name and url verbatim from the upstream
identifier and url fields, so a produced record's name and url are nonempty
whenever the corresponding upstream fields are nonempty; on the GitHub scrape
path the url is the GitHub origin concatenated with the href and is therefore
always nonempty. -/
theorem C8_amended_nonempty (parseTime : String → Option Nat) :
    (∀ (data : List GiteaRepository) (limit : Nat) (langs : LanguageFilter),
      (∀ x ∈ data, x.full_name ≠ "" ∧ x.html_url ≠ "") →
      ∀ r ∈ giteaTopToday parseTime data limit langs,
        r.name ≠ "" ∧ r.url ≠ "") ∧
    (∀ (projects : List GitLabProject) (limit : Nat) (langs : LanguageFilter),
      (∀ x ∈ projects, x.path_with_namespace ≠ "" ∧ x.web_url ≠ "") →
      ∀ r ∈ gitlabTopToday parseTime projects limit langs,
        r.name ≠ "" ∧ r.url ≠ "") ∧
    (∀ (items : List GitHubRepository) (excl : List String) (limit : Nat)
        (langs : LanguageFilter),
      (∀ x ∈ items, x.full_name ≠ "" ∧ x.html_url ≠ "") →
      ∀ r ∈ githubApiTopToday parseTime items excl limit langs,
        r.name ≠ "" ∧ r.url ≠ "") ∧
    (∀ (pages : Option String → Except String (List Article))
        (now limit : Nat) (langs : LanguageFilter) (repos : List Repo),
      githubTopTodayScrape pages now limit langs = .ok repos →
      ∀ r ∈ repos, r.url ≠ "") := by
  refine ⟨?_, ?_, ?_, ?_⟩
  · intro data limit langs hin r hr
    unfold giteaTopToday at hr
    obtain ⟨x, hx, rfl⟩ := List.mem_map.mp hr
    obtain ⟨hxmem, -⟩ := mem_of_mem_filter_take _ _ _ _ hx
    unfold giteaFetchFilter at hxmem
    exact hin x (List.mem_of_mem_filter hxmem)
  · intro projects limit langs hin r hr
    unfold gitlabTopToday at hr
    obtain ⟨x, hx, rfl⟩ := List.mem_map.mp hr
    obtain ⟨hxmem, -⟩ := mem_of_mem_filter_take _ _ _ _ hx
    obtain ⟨p', hp', rfl⟩ := List.mem_map.mp hxmem
    unfold gitlabFetchFilter at hp'
    exact hin p' (List.mem_of_mem_filter hp')
  · intro items excl limit langs hin r hr
    unfold githubApiTopToday at hr
    obtain ⟨x, hx, rfl⟩ := List.mem_map.mp hr
    obtain ⟨hxmem, -⟩ := mem_of_mem_filter_take _ _ _ _ hx
    exact hin x hxmem
  · intro pages now limit langs repos hres r hr
    unfold githubTopTodayScrape at hres
    split at hres
    · cases hf : fetch_trending pages none with
      | error e =>
        rw [hf] at hres
        exact Except.noConfusion hres
      | ok trending =>
        rw [hf] at hres
        have hrep := Except.ok.inj hres
        rw [← hrep] at hr
        unfold scrapePost at hr
        obtain ⟨x, hx, rfl⟩ := List.mem_map.mp hr
        obtain ⟨hxmem, -⟩ := mem_of_mem_filter_take _ _ _ _ hx
        exact fetch_trending_ok_url pages none trending hf x hxmem
    · have hrep := Except.ok.inj hres
      rw [← hrep] at hr
      unfold scrapePost at hr
      obtain ⟨x, hx, rfl⟩ := List.mem_map.mp hr
      obtain ⟨hxmem, -⟩ := mem_of_mem_filter_take _ _ _ _ hx
      exact scrape_fold_url pages langs.languages []
        (fun t ht => absurd ht (List.not_mem_nil t)) x hxmem

/-- C8 witness: the Gitea conjunct instantiated at a concrete item with
nonempty fields. -/
theorem C8_amended_nonempty_witness :
    sampleGiteaRepo.name ≠ "" ∧ sampleGiteaRepo.url ≠ "" :=
  (C8_amended_nonempty (fun _ => none)).1 [sampleGiteaItem] 5 ⟨[]⟩
    (by decide) sampleGiteaRepo (by decide)

/-- C10: the case-insensitive comparisons are ASCII-only.  A language
differing from the (nonempty) filter set entry only in the case of the
non-ASCII letter c-cedilla does not match; a topic differing from the
exclusion entry only in that letter's case is not excluded (the API pipeline
keeps the record); and any two strings differing only in ASCII letter case
always compare equal. -/
theorem C10_ascii_only_case (a b : String) :
    LanguageFilter.matchesLang ⟨["Ç"]⟩ (some "ç") = false ∧
    githubApiTopToday (fun _ => none) [cedillaItem] ["Ç"] 5 ⟨[]⟩ =
      [cedillaRepo] ∧
    (asciiCaseVariant a b = true → eqIgnoreAsciiCase a b = true) := by
  refine ⟨by decide, by decide, ?_⟩
  intro h
  unfold asciiCaseVariant at h
  have h' := Bool.and_eq_true_iff.mp h
  unfold eqIgnoreAsciiCase
  exact decide_eq_true (asciiVariant_lists _ _ (of_decide_eq_true h'.1) h'.2)

/-- C10 witness: the ASCII-case clause instantiated at Rust versus rUST. -/
theorem C10_ascii_only_case_witness :
    eqIgnoreAsciiCase "Rust" "rUST" = true :=
  (C10_ascii_only_case "Rust" "rUST").2.2 (by decide)
